import Mathlib

/-!
Shallow embedding of the connection-data service
(`backend/services/mgmt/v1alpha1/connection-data-service/connection-data.go`)
of the neosync repository, together with proofs about its behaviour.

Machine values passed between the service and its backends are modelled as
`List Nat` byte sequences; Go's `error` results are modelled by `GoResult`,
whose `panicked` constructor records a Go runtime panic (such as an
out-of-range slice index).  External collaborators (the S3 client, the SQL
introspection queries, the job-run registry) are passed in as explicit
function arguments.
-/

/-- Error classes produced by the service, mirroring the constructors of the
`nucleuserrors` package used in the source (`NewBadRequest`, `NewNotFound`,
`NewNotImplemented`, `NewInternalError`) plus generic wrapped errors
(`errors.New` / `fmt.Errorf`), decode failures (gzip/JSON) and backend
connectivity failures. -/
inductive ErrKind where
  | badRequest
  | notFound
  | notImplemented
  | internalError
  | generic
  | decodeError
  | connectError
  deriving DecidableEq, Repr

/-- Result of running a piece of Go code: a value, a returned error, or a
runtime panic (for unchecked slice indexing). -/
inductive GoResult (α : Type) where
  | ok (a : α)
  | err (e : ErrKind)
  | panicked
  deriving DecidableEq, Repr

def GoResult.bind {α β : Type} : GoResult α → (α → GoResult β) → GoResult β
  | .ok a, f => f a
  | .err e, _ => .err e
  | .panicked, _ => .panicked

def GoResult.isOk {α : Type} : GoResult α → Bool
  | .ok _ => true
  | _ => false

/-- Effectful map over a list in the `GoResult` monad: stops at the first
error, mirroring a Go loop whose body may `return err`. -/
def goMapM {α β : Type} (f : α → GoResult β) : List α → GoResult (List β)
  | [] => .ok []
  | a :: rest => (f a).bind fun b => (goMapM f rest).bind fun bs => .ok (b :: bs)

/-- Bytes of a string literal (UTF-8 is irrelevant here: every literal used by
the source in row payloads is ASCII, so the code-point value is the byte). -/
def asciiBytes (s : String) : List Nat := s.data.map Char.toNat

/-! ### Decimal digit encoding (used by `time.Time.Format` and `json.Marshal`) -/

/-- Zero-padded fixed-width decimal digits of `n`, most significant first,
as ASCII byte values. -/
def natToPaddedBytes : Nat → Nat → List Nat
  | 0, _ => []
  | w + 1, n => natToPaddedBytes w (n / 10) ++ [48 + n % 10]

/-- Value of an ASCII decimal digit byte value, if it is one. -/
def digitByteVal (b : Nat) : Option Nat :=
  if 48 ≤ b ∧ b ≤ 57 then some (b - 48) else none

/-- Left-to-right accumulation of decimal digits; fails on a non-digit. -/
def parseDigitsFrom (acc : Nat) : List Nat → Option Nat
  | [] => some acc
  | b :: rest =>
    match digitByteVal b with
    | some d => parseDigitsFrom (acc * 10 + d) rest
    | none => none

/-- Consume exactly `w` leading digit bytes of `bs` as a number, returning it
together with the remaining bytes. -/
def parseFixedBytes (w : Nat) (bs : List Nat) : Option (Nat × List Nat) :=
  if (bs.take w).length = w then
    (parseDigitsFrom 0 (bs.take w)).map (fun n => (n, bs.drop w))
  else none

/-- Consume one expected byte. -/
def expectByte (c : Nat) : List Nat → Option (List Nat)
  | [] => none
  | b :: rest => if b = c then some rest else none

/-- Unpadded decimal digits of `n` (fuel-driven so the kernel can evaluate). -/
def natToBytesAux : Nat → Nat → List Nat
  | 0, _ => []
  | fuel + 1, n =>
    if n < 10 then [48 + n]
    else natToBytesAux fuel (n / 10) ++ [48 + n % 10]

/-- ASCII decimal representation of a natural number, as Go's `strconv`
(and hence `json.Marshal` of a number) produces it. -/
def natToBytes (n : Nat) : List Nat := natToBytesAux (n + 1) n

/-- ASCII decimal representation of an integer, with a leading `-` for
negative values. -/
def intToBytes (n : Int) : List Nat :=
  if n < 0 then 45 :: natToBytes n.natAbs else natToBytes n.toNat

/-! ### `time.Time` values and RFC-3339 text

A Postgres `date` column is scanned into a Go `time.Time`; the service
re-encodes it with `Format(time.RFC3339)`.  The values in play are wall-clock
components in UTC (Go prints the `Z` suffix), so `GoTime` carries the six
components. -/

structure GoTime where
  year : Nat
  month : Nat
  day : Nat
  hour : Nat
  minute : Nat
  second : Nat
  deriving DecidableEq, Repr

/-- Go's zero `time.Time` value, `time.Time{}`: January 1 of year 1, 00:00:00. -/
def zeroGoTime : GoTime := ⟨1, 1, 1, 0, 0, 0⟩

/-- `t.Format(time.RFC3339)` for a UTC value: `yyyy-mm-ddThh:mm:ssZ`
(45 is `-`, 84 is `T`, 58 is `:`, 90 is `Z`). -/
def formatRFC3339 (t : GoTime) : List Nat :=
  natToPaddedBytes 4 t.year ++ 45 ::
  (natToPaddedBytes 2 t.month ++ 45 ::
  (natToPaddedBytes 2 t.day ++ 84 ::
  (natToPaddedBytes 2 t.hour ++ 58 ::
  (natToPaddedBytes 2 t.minute ++ 58 ::
  (natToPaddedBytes 2 t.second ++ [90])))))

/-- Parse `yyyy-mm-ddThh:mm:ssZ` back into its components. -/
def parseRFC3339 (bs : List Nat) : Option GoTime :=
  (parseFixedBytes 4 bs).bind fun yr =>
  (expectByte 45 yr.2).bind fun bs1 =>
  (parseFixedBytes 2 bs1).bind fun mo =>
  (expectByte 45 mo.2).bind fun bs2 =>
  (parseFixedBytes 2 bs2).bind fun dy =>
  (expectByte 84 dy.2).bind fun bs3 =>
  (parseFixedBytes 2 bs3).bind fun hr =>
  (expectByte 58 hr.2).bind fun bs4 =>
  (parseFixedBytes 2 bs4).bind fun mi =>
  (expectByte 58 mi.2).bind fun bs5 =>
  (parseFixedBytes 2 bs5).bind fun sc =>
  (expectByte 90 sc.2).bind fun bs6 =>
  match bs6 with
  | [] => some ⟨yr.1, mo.1, dy.1, hr.1, mi.1, sc.1⟩
  | _ => none

/-! ### UUID text encoding (`github.com/gofrs/uuid`)

`uuid.FromBytes` succeeds exactly on 16-byte inputs; `UUID.String` prints the
canonical lowercase-hex `8-4-4-4-12` form. -/

/-- Lowercase hex digit byte for a value below 16 (48 is `0`, 97 is `a`). -/
def hexDigitByte (d : Nat) : Nat := if d < 10 then 48 + d else 87 + d

/-- Two lowercase hex digit bytes of one byte value. -/
def byteToHex (b : Nat) : List Nat := [hexDigitByte (b / 16), hexDigitByte (b % 16)]

/-- Hex digits of a byte run. -/
def hexBytes (bs : List Nat) : List Nat := (bs.map byteToHex).flatten

/-- `UUID.String()` of a 16-byte value: hex of bytes 0-3, 4-5, 6-7, 8-9 and
10-15, joined with `-` (45). -/
def uuidToString (bs : List Nat) : List Nat :=
  hexBytes (bs.take 4) ++ 45 ::
  (hexBytes ((bs.drop 4).take 2) ++ 45 ::
  (hexBytes ((bs.drop 6).take 2) ++ 45 ::
  (hexBytes ((bs.drop 8).take 2) ++ 45 ::
  hexBytes (bs.drop 10))))

/-- A byte value that is a lowercase hex digit. -/
def isHexByte (b : Nat) : Bool := (48 ≤ b && b ≤ 57) || (97 ≤ b && b ≤ 102)

/-- A byte sequence is a canonical textual UUID: 36 bytes, `-` (45) at
positions 8, 13, 18 and 23, lowercase-hex digits everywhere else. -/
def isValidUuidString (bs : List Nat) : Bool :=
  decide (bs.length = 36) &&
  (bs.take 8).all isHexByte &&
  ((bs.drop 8).headD 0 == 45) &&
  ((bs.drop 9).take 4).all isHexByte &&
  ((bs.drop 13).headD 0 == 45) &&
  ((bs.drop 14).take 4).all isHexByte &&
  ((bs.drop 18).headD 0 == 45) &&
  ((bs.drop 19).take 4).all isHexByte &&
  ((bs.drop 23).headD 0 == 45) &&
  (bs.drop 24).all isHexByte

/-! ### JSON values on S3 data lines

Each data object holds newline-delimited JSON records; `json.Unmarshal` into
`map[string]any` yields per-key values.  The records written by job runs are
flat, so values are modelled as JSON scalars. -/

inductive JsonValue where
  | jnull
  | jbool (b : Bool)
  | jnum (n : Int)
  | jstr (s : List Nat)
  deriving DecidableEq, Repr

/-- `json.Marshal` of a scalar value. -/
def jsonMarshal : JsonValue → List Nat
  | .jnull => asciiBytes "null"
  | .jbool true => asciiBytes "true"
  | .jbool false => asciiBytes "false"
  | .jnum n => intToBytes n
  | .jstr s => 34 :: s ++ [34]

/-- Per-key value conversion of the S3 streaming path
(`GetConnectionDataStream`, AwsS3 branch): a JSON string passes through as its
raw bytes; anything else is JSON-encoded, and an encoding equal to the literal
`null` is replaced by a nil payload (`none`). -/
def convertValue (v : JsonValue) : Option (List Nat) :=
  match v with
  | .jstr s => some s
  | v =>
    let b := jsonMarshal v
    if b = asciiBytes "null" then none else some b

/-- A streamed row: column name to optional byte payload (nil = `none`). -/
def RowT : Type := List (String × Option (List Nat))

instance : DecidableEq RowT := inferInstanceAs (DecidableEq (List (String × Option (List Nat))))

/-- Row built from one decoded JSON line. -/
def rowOfFields (fields : List (String × JsonValue)) : RowT :=
  fields.map fun kv => (kv.1, convertValue kv.2)

/-! ### Postgres row value conversion

The Postgres branch of `GetConnectionDataStream` scans each result column
into `*[]byte`, except `date` columns (OID 1082), which are scanned through
`DateScanner` into a `time.Time`.  `DateScanner.Scan` leaves the target
untouched on a nil input and rejects non-`time.Time` inputs.  When building
the row, date columns are formatted as RFC-3339 (the guard `ds.val != nil`
tests the pointer, which is always the address of the local `t`, so it is
always true and the zero time is formatted when the column was NULL); UUID
columns (OID 2950) are re-encoded through `uuid.FromBytes` when that
succeeds, i.e. on exactly 16 bytes; all other columns pass through raw. -/

structure PgColumn where
  name : String
  dataTypeOID : Nat
  deriving DecidableEq, Repr

/-- What the driver delivers for one column of one result row. -/
inductive PgScanned where
  | null
  | timeVal (t : GoTime)
  | bytes (bs : List Nat)
  deriving DecidableEq, Repr

def convertPgValue (oid : Nat) (v : PgScanned) : GoResult (Option (List Nat)) :=
  if oid = 1082 then
    match v with
    | .null => .ok (some (formatRFC3339 zeroGoTime))
    | .timeVal t => .ok (some (formatRFC3339 t))
    | .bytes _ => .err .decodeError
  else if oid = 2950 then
    match v with
    | .null => .ok none
    | .timeVal _ => .err .decodeError
    | .bytes bs => .ok (some (if bs.length = 16 then uuidToString bs else bs))
  else
    match v with
    | .null => .ok none
    | .timeVal _ => .err .decodeError
    | .bytes bs => .ok (some bs)

/-- One Postgres result row converted to the wire row. -/
def convertPgRow (cols : List PgColumn) (vals : List PgScanned) : GoResult RowT :=
  goMapM (fun cv => (convertPgValue cv.1.dataTypeOID cv.2).bind fun p => .ok (cv.1.name, p))
    (cols.zip vals)

/-! ### Go string helpers

Structural (fuel-driven) implementations of the `strings` package functions
the source uses, so that the kernel can evaluate them on concrete inputs. -/

/-- Accumulating worker for `strings.Split`: `cur` is the current segment in
reverse.  The fuel is at least `l.length + 1`, which one step always respects
because a match consumes at least one character (separators are non-empty). -/
def splitOnCharsAux (sep : List Char) : Nat → List Char → List Char → List (List Char)
  | 0, cur, _ => [cur.reverse]
  | fuel + 1, cur, l =>
    match l with
    | [] => [cur.reverse]
    | c :: rest =>
      if sep.isPrefixOf l then
        cur.reverse :: splitOnCharsAux sep fuel [] (l.drop sep.length)
      else
        splitOnCharsAux sep fuel (c :: cur) rest

/-- `strings.Split(s, sep)` for a non-empty separator. -/
def splitOnString (s sep : String) : List String :=
  (splitOnCharsAux sep.data (s.data.length + 1) [] s.data).map fun cs => ⟨cs⟩

/-- `strings.ReplaceAll(s, "/", "")`. -/
def removeSlashes (s : String) : String := ⟨s.data.filter fun c => c ≠ '/'⟩

/-- Modelled from the spec: `sql_manager.BuildTable` (outside this source
unit) joins a schema and table name into the dotted `schema.table` form used
both in SQL statements and in the object-store layout
`workflows/<runId>/activities/<schema>.<table>/data`. -/
def buildTable (schema table : String) : String :=
  if schema = "" then table else schema ++ "." ++ table

/-! ### S3 objects, listings and the environment -/

/-- One newline-delimited JSON line of a data object: either it decodes into
a key/value record or `json.Unmarshal` fails on it. -/
inductive S3Line where
  | good (fields : List (String × JsonValue))
  | badJson
  deriving DecidableEq

/-- One S3 object as the streaming code sees it: `GetObject` may fail, the
gzip header may be corrupt (`gzip.NewReader` fails), or the body scans as a
line sequence, with `scanFail` recording a scanner error after those lines. -/
inductive S3Object where
  | fetchErr
  | gzBad
  | gzOk (lines : List S3Line) (scanFail : Bool)
  deriving DecidableEq

/-- Result of one `ListObjectsV2` call: an error, a nil output, or an output. -/
inductive Listing (α : Type) where
  | err
  | nil
  | ok (a : α)
  deriving DecidableEq

/-- The fields of a `ListObjectsV2` output read under the
`workflows/<runId>/activities/` prefix with delimiter `/`: `KeyCount` (used
by run resolution) and `CommonPrefixes` (used by schema discovery). -/
structure ActivitiesOutput where
  keyCount : Nat
  commonPrefixList : List String
  deriving DecidableEq

/-- External S3 collaborator: listings keyed by the request prefix, and
object bodies keyed by object key. -/
structure S3Env where
  activitiesListing : String → Listing ActivitiesOutput
  dataListing : String → Listing (List String)
  getObject : String → S3Object

def activitiesPath (runId : String) : String :=
  "workflows/" ++ runId ++ "/activities/"

def dataPathOf (runId schema table : String) : String :=
  activitiesPath runId ++ buildTable schema table ++ "/data"

/-! ### S3 row streaming (AwsS3 branch of `GetConnectionDataStream`)

The loop opens each object body, wraps it in a gzip reader, scans
line-by-line, JSON-decodes each line and sends a row; any failure closes the
open readers and aborts the whole call.  The trace records reader
opens/closes and row sends so resource handling is provable. -/

inductive S3Event where
  | openBody (idx : Nat)
  | openGzr (idx : Nat)
  | closeBody (idx : Nat)
  | closeGzr (idx : Nat)
  | sendRow (row : RowT)
  deriving DecidableEq

/-- Scan the lines of one object: rows for the leading well-formed lines, and
the error that aborts the call at the first line `json.Unmarshal` rejects. -/
def processLines : List S3Line → List RowT × Option ErrKind
  | [] => ([], none)
  | .good fields :: rest =>
    let r := processLines rest
    (rowOfFields fields :: r.1, r.2)
  | .badJson :: _ => ([], some .decodeError)

/-- Process one object: emitted rows, reader trace, and the aborting error if
any.  On every path that opened the body (and gzip reader) both are closed,
matching the explicit `Close()` calls on each `return` and at loop end. -/
def processObject (idx : Nat) : S3Object → List RowT × List S3Event × Option ErrKind
  | .fetchErr => ([], [], some .connectError)
  | .gzBad => ([], [.openBody idx, .closeBody idx], some .decodeError)
  | .gzOk lines scanFail =>
    let r := processLines lines
    let e := match r.2 with
      | some err => some err
      | none => if scanFail then some ErrKind.decodeError else none
    (r.1,
     .openBody idx :: .openGzr idx :: (r.1.map S3Event.sendRow ++ [.closeBody idx, .closeGzr idx]),
     e)

/-- Stream all listed objects in order, aborting at the first failing object
and concatenating rows and traces. -/
def streamS3Objects : Nat → List S3Object → List RowT × List S3Event × Option ErrKind
  | _, [] => ([], [], none)
  | idx, o :: rest =>
    let r := processObject idx o
    match r.2.2 with
    | some e => (r.1, r.2.1, some e)
    | none =>
      let rr := streamS3Objects (idx + 1) rest
      (r.1 ++ rr.1, r.2.1 ++ rr.2.1, rr.2.2)

/-- Every reader opened in the trace is closed in it. -/
def balancedTrace (t : List S3Event) : Prop :=
  ∀ i, t.count (S3Event.openBody i) = t.count (S3Event.closeBody i)
    ∧ t.count (S3Event.openGzr i) = t.count (S3Event.closeGzr i)

/-- An object the loop gets through without error: readable, gzip-valid, all
lines well-formed JSON, no scanner failure. -/
def objClean : S3Object → Bool
  | .gzOk lines false => lines.all fun l => match l with | .good _ => true | .badJson => false
  | _ => false

/-- The rows a (clean) object contributes. -/
def objRows : S3Object → List RowT
  | .gzOk lines _ => (processLines lines).1
  | _ => []

/-! ### Run resolution (`getLastestJobRunFromAwsS3`)

The job service returns the job's recent runs; the recent-run list is ordered
with the newest run last (spec §6: the history is an ordered list the
resolution logic must scan explicitly), and the loop walks the slice from its
last index down to 0, returning the first run whose
`workflows/<runId>/activities/` listing has a positive `KeyCount`. -/

structure JobRun where
  jobRunId : String
  startTime : Nat
  deriving DecidableEq

/-- The run's activities listing succeeded with at least one key. -/
def runHasData (env : S3Env) (r : JobRun) : Bool :=
  match env.activitiesListing (activitiesPath r.jobRunId) with
  | .ok out => decide (0 < out.keyCount)
  | _ => false

/-- The run's activities listing did not return an error. -/
def runListingOk (env : S3Env) (r : JobRun) : Bool :=
  match env.activitiesListing (activitiesPath r.jobRunId) with
  | .err => false
  | _ => true

/-- The downward index loop, expressed as a scan of the reversed run list:
a listing error aborts, a nil output is skipped, a positive `KeyCount`
returns the run id, and exhaustion returns the `NewInternalError` of the
source's final line. -/
def scanRunsRev (env : S3Env) : List JobRun → GoResult String
  | [] => .err .internalError
  | r :: rest =>
    match env.activitiesListing (activitiesPath r.jobRunId) with
    | .err => .err .connectError
    | .nil => scanRunsRev env rest
    | .ok out => if 0 < out.keyCount then .ok r.jobRunId else scanRunsRev env rest

def getLastestJobRunFromAwsS3 (env : S3Env) (jobRuns : List JobRun) : GoResult String :=
  scanRunsRev env jobRuns.reverse

/-! ### Introspected columns and schema/table validation -/

structure DatabaseColumn where
  schema : String
  table : String
  column : String
  dataType : String
  deriving DecidableEq

def isValidTable (table : String) (columns : List DatabaseColumn) : Bool :=
  columns.any fun c => c.table == table

def isValidSchema (schema : String) (columns : List DatabaseColumn) : Bool :=
  columns.any fun c => c.schema == schema

/-- `areSchemaAndTableValid`: fetch the connection's introspected schema
(passed in as the already-computed `intro` result) and fail with
`BadRequest` unless both names are members. -/
def areSchemaAndTableValid (intro : GoResult (List DatabaseColumn))
    (schema table : String) : GoResult Unit :=
  intro.bind fun schemas =>
    if !isValidSchema schema schemas || !isValidTable table schemas then
      .err .badRequest
    else .ok ()

/-! ### S3 schema discovery (AwsS3 branch of `GetConnectionSchema`) -/

/-- The table folder of a common prefix: the text after the last `activities`
occurrence, with all slashes removed (`strings.Split` + `ReplaceAll`). -/
def tableFolderOf (p : String) : String :=
  removeSlashes ((splitOnString p "activities").getLastD "")

/-- `schemaTableList`: the table folder split on `.`.  The source indexes
entry 1 without a bounds check. -/
def schemaTableListOf (p : String) : List String :=
  splitOnString (tableFolderOf p) "."

/-- Columns inferred from the first line of a table's first data object:
one catalog-less column per JSON key. -/
def firstLineColumns (schemaName tableName : String) : S3Object → GoResult (List DatabaseColumn)
  | .fetchErr => .err .connectError
  | .gzBad => .err .decodeError
  | .gzOk [] true => .err .decodeError
  | .gzOk [] false => .ok []
  | .gzOk (.badJson :: _) _ => .err .decodeError
  | .gzOk (.good fields :: _) _ =>
    .ok (fields.map fun kv => ⟨schemaName, tableName, kv.1, ""⟩)

/-- The loop over `output.CommonPrefixes`: split the prefix into the
schema/table pair (indexing `schemaTableList[1]` panics when the folder has
no dot), list the table's data prefix with `MaxKeys=1` (a nil output breaks
out of the loop returning what was accumulated; indexing `out.Contents[0]`
panics when the listing is empty), and infer columns from the first object's
first line. -/
def processCommonPrefixList (env : S3Env) (path : String) :
    List DatabaseColumn → List String → GoResult (List DatabaseColumn)
  | acc, [] => .ok acc
  | acc, p :: rest =>
    match schemaTableListOf p with
    | s0 :: s1 :: _ =>
      let filePath := path ++ buildTable s0 s1 ++ "/data"
      match env.dataListing filePath with
      | .err => .err .connectError
      | .nil => .ok acc
      | .ok [] => .panicked
      | .ok (key :: _) =>
        match firstLineColumns s0 s1 (env.getObject key) with
        | .err e => .err e
        | .panicked => .panicked
        | .ok cols => processCommonPrefixList env path (acc ++ cols) rest
    | _ => .panicked

def getConnectionSchemaS3 (env : S3Env) (runId : String) : GoResult (List DatabaseColumn) :=
  match env.activitiesListing (activitiesPath runId) with
  | .err => .err .connectError
  | .nil => .ok []
  | .ok out => processCommonPrefixList env (activitiesPath runId) [] out.commonPrefixList

/-! ### Connection dispatch -/

/-- The backend kinds of `ConnectionConfig.Config` that the service
dispatches on (the OpenAI kind stands for every kind the `switch` statements
leave to their `default` branch). -/
inductive ConnectionConfig where
  | postgres
  | mysql
  | awsS3
  | openai
  deriving DecidableEq

/-- The `Id` union of `AwsS3StreamConfig` / `AwsS3SchemaConfig`: an explicit
run id, a job id to resolve, or an unrecognised variant. -/
inductive S3Sel where
  | byRunId (id : String)
  | byJobId (id : String)
  | unspecified
  deriving DecidableEq

/-- Resolve the S3 selector to a run id: an explicit run id is used directly,
a job id goes through run resolution, and an unrecognised variant is the
source's `NewInternalError("unsupported AWS S3 config id")`. -/
def resolveS3Run (env : S3Env) (jobRuns : List JobRun) : S3Sel → GoResult String
  | .byRunId id => .ok id
  | .byJobId _ => getLastestJobRunFromAwsS3 env jobRuns
  | .unspecified => .err .internalError

/-- `GetConnectionSchema`: relational kinds run the catalog introspection
(the external `GetDatabaseSchema` call, passed in as `sqlIntrospect`); the S3
kind requires a schema config (`BadRequest` when nil), resolves the run and
discovers tables/columns from the object layout; every other kind is
`NotImplemented`. -/
def GetConnectionSchema (cfg : ConnectionConfig)
    (sqlIntrospect : GoResult (List DatabaseColumn))
    (s3cfg : Option S3Sel) (env : S3Env) (jobRuns : List JobRun) :
    GoResult (List DatabaseColumn) :=
  match cfg with
  | .postgres => sqlIntrospect
  | .mysql => sqlIntrospect
  | .awsS3 =>
    match s3cfg with
    | none => .err .badRequest
    | some sel => (resolveS3Run env jobRuns sel).bind fun runId =>
        getConnectionSchemaS3 env runId
  | .openai => .err .notImplemented

/-- The `schemaOpts` passed to the private schema helper. -/
structure SchemaOpts where
  jobId : Option String
  jobRunId : Option String

/-- How the helper turns its options into an `AwsS3SchemaConfig` (`none`
models the nil config produced when neither option is set). -/
def optsToS3Sel (opts : SchemaOpts) : Option S3Sel :=
  match opts.jobRunId with
  | some v => if v ≠ "" then some (.byRunId v) else
      match opts.jobId with
      | some w => if w ≠ "" then some (.byJobId w) else none
      | none => none
  | none =>
      match opts.jobId with
      | some w => if w ≠ "" then some (.byJobId w) else none
      | none => none

/-- `getConnectionSchema` (the private helper): builds the per-kind schema
request and delegates to `GetConnectionSchema`; kinds outside the switch are
`NotImplemented`. -/
def getConnectionSchemaHelper (cfg : ConnectionConfig) (opts : SchemaOpts)
    (sqlIntrospect : GoResult (List DatabaseColumn))
    (env : S3Env) (jobRuns : List JobRun) : GoResult (List DatabaseColumn) :=
  match cfg with
  | .postgres => GetConnectionSchema .postgres sqlIntrospect none env jobRuns
  | .mysql => GetConnectionSchema .mysql sqlIntrospect none env jobRuns
  | .awsS3 => GetConnectionSchema .awsS3 sqlIntrospect (optsToS3Sel opts) env jobRuns
  | .openai => .err .notImplemented

/-! ### Init statements (`GetConnectionInitStatements`) -/

structure InitStatementOptions where
  initSchema : Bool
  truncateBeforeInsert : Bool
  truncateCascade : Bool

structure InitStatementsResponse where
  tableInitStatements : List (String × String)
  tableTruncateStatements : List (String × String)
  deriving DecidableEq

/-- Insert into a Go-map-like association list: overwrite an existing key,
append a fresh one. -/
def insertAssoc (m : List (String × DatabaseColumn)) (k : String) (v : DatabaseColumn) :
    List (String × DatabaseColumn) :=
  if m.any fun p => p.1 == k then
    m.map fun p => if p.1 == k then (k, v) else p
  else m ++ [(k, v)]

/-- `schemaTableMap`: one entry per distinct `schema.table` key of the
introspected columns (later columns overwrite earlier ones, as in a Go map). -/
def buildSchemaTableMap (schemaResp : List DatabaseColumn) : List (String × DatabaseColumn) :=
  schemaResp.foldl (fun m c => insertAssoc m (buildTable c.schema c.table) c) []

/-- Modelled from the spec: `sql_manager.BuildMysqlTruncateStatement`
(outside this source unit) always produces a truncate statement for the
table — MySQL truncate is always supported. -/
def buildMysqlTruncateStatement (schema table : String) : String :=
  "TRUNCATE TABLE " ++ buildTable schema table ++ ";"

/-- Modelled from the spec: `sql_manager.BuildPgTruncateCascadeStatement`
(outside this source unit) produces the cascading truncate statement for the
table. -/
def buildPgTruncateCascadeStatement (schema table : String) : String :=
  "TRUNCATE TABLE " ++ buildTable schema table ++ " CASCADE;"

/-- `GetConnectionInitStatements`: introspect through the schema helper,
build `schemaTableMap`, optionally collect create statements, then branch on
the backend kind for truncate statements.  MySQL builds one per table when
`truncateBeforeInsert` is set; Postgres builds one per table when
`truncateCascade` is set and fails with `NotImplemented` when only
`truncateBeforeInsert` is set; any other kind hits the
`errors.New("unsupported connection config")` default. -/
def GetConnectionInitStatements (cfg : ConnectionConfig) (opts : InitStatementOptions)
    (sqlIntrospect : GoResult (List DatabaseColumn)) (env : S3Env) (jobRuns : List JobRun)
    (getCreate : String → String → GoResult String) : GoResult InitStatementsResponse :=
  (getConnectionSchemaHelper cfg ⟨none, none⟩ sqlIntrospect env jobRuns).bind fun schemaResp =>
    let stMap := buildSchemaTableMap schemaResp
    (if opts.initSchema then
        goMapM (fun kc => (getCreate kc.2.schema kc.2.table).bind fun stmt => .ok (kc.1, stmt)) stMap
      else .ok []).bind fun createStmts =>
    match cfg with
    | .mysql =>
      .ok ⟨createStmts,
        if opts.truncateBeforeInsert then
          stMap.map fun kc => (kc.1, buildMysqlTruncateStatement kc.2.schema kc.2.table)
        else []⟩
    | .postgres =>
      if opts.truncateCascade then
        .ok ⟨createStmts,
          stMap.map fun kc => (kc.1, buildPgTruncateCascadeStatement kc.2.schema kc.2.table)⟩
      else if opts.truncateBeforeInsert then .err .notImplemented
      else .ok ⟨createStmts, []⟩
    | _ => .err .generic

/-! ### Single-table schema (`getConnectionTableSchema`) -/

/-- `getConnectionTableSchema`: Postgres runs a table-filtered catalog query
(the external call's result is `pgTableSchema`); MySQL fetches the full
schema and filters client-side; every other kind returns `BadRequest`. -/
def getConnectionTableSchema (cfg : ConnectionConfig)
    (pgTableSchema : GoResult (List DatabaseColumn))
    (myFullSchema : GoResult (List DatabaseColumn))
    (schema table : String) : GoResult (List DatabaseColumn) :=
  match cfg with
  | .postgres => pgTableSchema
  | .mysql => myFullSchema.bind fun cols =>
      .ok (cols.filter fun c => c.schema == schema && c.table == table)
  | _ => .err .badRequest

/-! ### Row streaming entry point (`GetConnectionDataStream`) -/

/-- `GetConnectionDataStream` after connection lookup and authorization:
relational kinds validate the schema/table names against the introspected
schema and then convert and send each backend row (MySQL rows pass through
raw, Postgres rows go through `convertPgValue`); the S3 kind requires a
stream config (`BadRequest` when nil), resolves the run, lists the table's
data objects (a listing error aborts, a nil output ends with no rows) and
streams their decompressed JSON lines; other kinds are `NotImplemented`.
The sent rows are collected in order as the call's value. -/
def GetConnectionDataStream (cfg : ConnectionConfig)
    (intro : GoResult (List DatabaseColumn)) (schema table : String)
    (pgCols : List PgColumn) (pgRows : List (List PgScanned))
    (myCols : List String) (myRows : List (List (Option (List Nat))))
    (s3cfg : Option S3Sel) (env : S3Env) (jobRuns : List JobRun) :
    GoResult (List RowT) :=
  match cfg with
  | .mysql =>
    (areSchemaAndTableValid intro schema table).bind fun _ =>
      .ok (myRows.map fun vals => myCols.zip vals)
  | .postgres =>
    (areSchemaAndTableValid intro schema table).bind fun _ =>
      goMapM (convertPgRow pgCols) pgRows
  | .awsS3 =>
    match s3cfg with
    | none => .err .badRequest
    | some sel =>
      (resolveS3Run env jobRuns sel).bind fun runId =>
        match env.dataListing (dataPathOf runId schema table) with
        | .err => .err .connectError
        | .nil => .ok []
        | .ok keys =>
          let r := streamS3Objects 0 (keys.map env.getObject)
          match r.2.2 with
          | some e => .err e
          | none => .ok r.1
  | .openai => .err .notImplemented

/-! ### Row count (`GetTableRowCount`) -/

/-- `GetTableRowCount` after connection lookup and authorization: open the
SQL connection and delegate the count query directly — the source performs
no schema/table membership validation before delegating. -/
def GetTableRowCount (newSqlDb : GoResult Unit)
    (getCount : String → String → Option String → GoResult Int)
    (schema table : String) (whereClause : Option String) : GoResult Int :=
  newSqlDb.bind fun _ => getCount schema table whereClause

/-! ### Concrete fixtures used to evaluate the definitions -/

/-- Runs `r1` (newest), `r2`, `r3` (oldest) stored newest-last; only `r2`'s
activities prefix has keys. -/
def exRuns : List JobRun := [⟨"r3", 1⟩, ⟨"r2", 2⟩, ⟨"r1", 3⟩]

def exRunEnv : S3Env :=
  { activitiesListing := fun p =>
      if p = "workflows/r2/activities/" then .ok ⟨1, []⟩ else .ok ⟨0, []⟩
    dataListing := fun _ => .nil
    getObject := fun _ => .gzBad }

/-- An environment in which no run has data. -/
def exEmptyEnv : S3Env :=
  { activitiesListing := fun _ => .ok ⟨0, []⟩
    dataListing := fun _ => .nil
    getObject := fun _ => .gzBad }

/-- Three objects, the middle one with a corrupt gzip header. -/
def exStreamObjs : List S3Object :=
  [.gzOk [.good [("a", .jstr (asciiBytes "x"))]] false,
   .gzBad,
   .gzOk [.good [("b", .jnum 2)]] false]

/-- An environment whose every listing returns a nil output. -/
def exNilEnv : S3Env :=
  { activitiesListing := fun _ => .nil
    dataListing := fun _ => .nil
    getObject := fun _ => .gzBad }

/-- A 16-byte UUID value. -/
def exUuidBytes : List Nat :=
  [18, 52, 86, 120, 154, 188, 222, 240, 1, 35, 69, 103, 137, 171, 205, 239]

/-- Two introspected tables. -/
def exSchemas : List DatabaseColumn :=
  [⟨"public", "users", "id", "int"⟩, ⟨"public", "orders", "id", "int"⟩]

/-- A listing whose single common prefix has no dot in its table folder. -/
def exNoDotEnv : S3Env :=
  { activitiesListing := fun p =>
      if p = "workflows/r1/activities/" then .ok ⟨1, ["workflows/r1/activities/nodot/"]⟩
      else .nil
    dataListing := fun _ => .nil
    getObject := fun _ => .gzBad }

/-- A listing with a well-formed dotted common prefix whose table data
listing succeeds but is empty. -/
def exEmptyListingEnv : S3Env :=
  { activitiesListing := fun p =>
      if p = "workflows/r1/activities/" then
        .ok ⟨1, ["workflows/r1/activities/public.users/"]⟩
      else .nil
    dataListing := fun _ => .ok []
    getObject := fun _ => .gzBad }

/-- An S3 source holding one streamable object for the table `nope.nada` of
run `r1`. -/
def exS3StreamEnv : S3Env :=
  { activitiesListing := fun _ => .nil
    dataListing := fun p =>
      if p = "workflows/r1/activities/nope.nada/data" then .ok ["k1"] else .nil
    getObject := fun k =>
      if k = "k1" then .gzOk [.good [("a", .jstr (asciiBytes "x"))]] false
      else .gzBad }

/-! ## Supporting lemmas -/

theorem length_natToPaddedBytes (w n : Nat) : (natToPaddedBytes w n).length = w := by
  induction w generalizing n with
  | zero => rfl
  | succ w ih => simp [natToPaddedBytes, ih]

theorem parseDigitsFrom_append (acc : Nat) (xs ys : List Nat) :
    parseDigitsFrom acc (xs ++ ys) =
      (parseDigitsFrom acc xs).bind fun a => parseDigitsFrom a ys := by
  induction xs generalizing acc with
  | nil => rfl
  | cons b xs ih =>
    simp only [List.cons_append, parseDigitsFrom]
    cases hb : digitByteVal b with
    | none => rfl
    | some d => simpa using ih (acc * 10 + d)

theorem parseDigitsFrom_natToPaddedBytes (w n acc : Nat) (h : n < 10 ^ w) :
    parseDigitsFrom acc (natToPaddedBytes w n) = some (acc * 10 ^ w + n) := by
  induction w generalizing n acc with
  | zero =>
    have hn : n = 0 := by simpa using h
    subst hn
    simp [natToPaddedBytes, parseDigitsFrom]
  | succ w ih =>
    have h1 : n / 10 < 10 ^ w := by
      rw [Nat.div_lt_iff_lt_mul (by omega : (0:Nat) < 10)]
      calc n < 10 ^ (w + 1) := h
        _ = 10 ^ w * 10 := by ring
    rw [natToPaddedBytes, parseDigitsFrom_append, ih (n / 10) acc h1]
    have hd : digitByteVal (48 + n % 10) = some (n % 10) := by
      have hm : n % 10 < 10 := Nat.mod_lt _ (by omega)
      unfold digitByteVal
      rw [if_pos (by omega)]
      congr 1
      omega
    simp only [Option.bind, parseDigitsFrom, hd]
    congr 1
    rw [pow_succ, ← mul_assoc, Nat.add_mul, add_assoc]
    congr 1
    omega

theorem parseFixedBytes_pad (w n : Nat) (h : n < 10 ^ w) (rest : List Nat) :
    parseFixedBytes w (natToPaddedBytes w n ++ rest) = some (n, rest) := by
  have hl : (natToPaddedBytes w n).length = w := length_natToPaddedBytes w n
  unfold parseFixedBytes
  rw [List.take_left' hl, List.drop_left' hl, if_pos hl,
    parseDigitsFrom_natToPaddedBytes w n 0 h]
  simp

theorem expectByte_cons (c : Nat) (rest : List Nat) : expectByte c (c :: rest) = some rest := by
  simp [expectByte]

theorem parseRFC3339_formatRFC3339 (t : GoTime)
    (hy : t.year < 10 ^ 4) (hmo : t.month < 10 ^ 2) (hd : t.day < 10 ^ 2)
    (hh : t.hour < 10 ^ 2) (hmi : t.minute < 10 ^ 2) (hs2 : t.second < 10 ^ 2) :
    parseRFC3339 (formatRFC3339 t) = some t := by
  simp only [formatRFC3339, parseRFC3339,
    parseFixedBytes_pad 4 t.year hy, parseFixedBytes_pad 2 t.month hmo,
    parseFixedBytes_pad 2 t.day hd, parseFixedBytes_pad 2 t.hour hh,
    parseFixedBytes_pad 2 t.minute hmi, parseFixedBytes_pad 2 t.second hs2,
    expectByte_cons, Option.bind]

theorem isHexByte_hexDigitByte (d : Nat) (h : d < 16) : isHexByte (hexDigitByte d) = true := by
  unfold isHexByte hexDigitByte
  split <;> simp only [Bool.or_eq_true, Bool.and_eq_true, decide_eq_true_eq] <;> omega

theorem length_hexBytes (l : List Nat) : (hexBytes l).length = 2 * l.length := by
  induction l with
  | nil => rfl
  | cons b l ih =>
    simp only [hexBytes, List.map_cons, List.flatten_cons] at *
    simp [byteToHex, ih]
    omega

theorem all_isHexByte_hexBytes (l : List Nat) (h : ∀ b ∈ l, b < 256) :
    (hexBytes l).all isHexByte = true := by
  induction l with
  | nil => rfl
  | cons b l ih =>
    have hb : b < 256 := h b (by simp)
    have ihl : (hexBytes l).all isHexByte = true := ih fun x hx => h x (by simp [hx])
    simp only [hexBytes] at ihl
    simp only [hexBytes, List.map_cons, List.flatten_cons, List.all_append, ihl]
    simp [byteToHex, isHexByte_hexDigitByte (b / 16) (by omega),
      isHexByte_hexDigitByte (b % 16) (by omega)]

theorem isValidUuidString_parts (A B C D E : List Nat)
    (hA : A.length = 8) (hB : B.length = 4) (hC : C.length = 4)
    (hD : D.length = 4) (hE : E.length = 12)
    (aA : A.all isHexByte = true) (aB : B.all isHexByte = true)
    (aC : C.all isHexByte = true) (aD : D.all isHexByte = true)
    (aE : E.all isHexByte = true) :
    isValidUuidString (A ++ 45 :: (B ++ 45 :: (C ++ 45 :: (D ++ 45 :: E)))) = true := by
  have h9 : (A ++ [45]).length = 9 := by simp [hA]
  have h13 : (A ++ [45] ++ B).length = 13 := by simp [hA, hB]
  have h14 : (A ++ [45] ++ B ++ [45]).length = 14 := by simp [hA, hB]
  have h18 : (A ++ [45] ++ B ++ [45] ++ C).length = 18 := by simp [hA, hB, hC]
  have h19 : (A ++ [45] ++ B ++ [45] ++ C ++ [45]).length = 19 := by simp [hA, hB, hC]
  have h23 : (A ++ [45] ++ B ++ [45] ++ C ++ [45] ++ D).length = 23 := by
    simp [hA, hB, hC, hD]
  have h24 : (A ++ [45] ++ B ++ [45] ++ C ++ [45] ++ D ++ [45]).length = 24 := by
    simp [hA, hB, hC, hD]
  have hshape : A ++ 45 :: (B ++ 45 :: (C ++ 45 :: (D ++ 45 :: E))) =
      A ++ [45] ++ B ++ [45] ++ C ++ [45] ++ D ++ [45] ++ E := by
    simp
  unfold isValidUuidString
  rw [hshape]
  have c1 : (A ++ [45] ++ B ++ [45] ++ C ++ [45] ++ D ++ [45] ++ E).length = 36 := by
    simp [hA, hB, hC, hD, hE]
  have c2 : ((A ++ [45] ++ B ++ [45] ++ C ++ [45] ++ D ++ [45] ++ E).take 8) = A := by
    rw [show A ++ [45] ++ B ++ [45] ++ C ++ [45] ++ D ++ [45] ++ E =
        A ++ ([45] ++ B ++ [45] ++ C ++ [45] ++ D ++ [45] ++ E) by simp]
    exact List.take_left' hA
  have c3 : ((A ++ [45] ++ B ++ [45] ++ C ++ [45] ++ D ++ [45] ++ E).drop 8) =
      [45] ++ B ++ [45] ++ C ++ [45] ++ D ++ [45] ++ E := by
    rw [show A ++ [45] ++ B ++ [45] ++ C ++ [45] ++ D ++ [45] ++ E =
        A ++ ([45] ++ B ++ [45] ++ C ++ [45] ++ D ++ [45] ++ E) by simp]
    exact List.drop_left' hA
  have c4 : ((A ++ [45] ++ B ++ [45] ++ C ++ [45] ++ D ++ [45] ++ E).drop 9) =
      B ++ [45] ++ C ++ [45] ++ D ++ [45] ++ E := by
    rw [show A ++ [45] ++ B ++ [45] ++ C ++ [45] ++ D ++ [45] ++ E =
        (A ++ [45]) ++ (B ++ [45] ++ C ++ [45] ++ D ++ [45] ++ E) by simp]
    exact List.drop_left' h9
  have c5 : ((A ++ [45] ++ B ++ [45] ++ C ++ [45] ++ D ++ [45] ++ E).drop 13) =
      [45] ++ C ++ [45] ++ D ++ [45] ++ E := by
    rw [show A ++ [45] ++ B ++ [45] ++ C ++ [45] ++ D ++ [45] ++ E =
        (A ++ [45] ++ B) ++ ([45] ++ C ++ [45] ++ D ++ [45] ++ E) by simp]
    exact List.drop_left' h13
  have c6 : ((A ++ [45] ++ B ++ [45] ++ C ++ [45] ++ D ++ [45] ++ E).drop 14) =
      C ++ [45] ++ D ++ [45] ++ E := by
    rw [show A ++ [45] ++ B ++ [45] ++ C ++ [45] ++ D ++ [45] ++ E =
        (A ++ [45] ++ B ++ [45]) ++ (C ++ [45] ++ D ++ [45] ++ E) by simp]
    exact List.drop_left' h14
  have c7 : ((A ++ [45] ++ B ++ [45] ++ C ++ [45] ++ D ++ [45] ++ E).drop 18) =
      [45] ++ D ++ [45] ++ E := by
    rw [show A ++ [45] ++ B ++ [45] ++ C ++ [45] ++ D ++ [45] ++ E =
        (A ++ [45] ++ B ++ [45] ++ C) ++ ([45] ++ D ++ [45] ++ E) by simp]
    exact List.drop_left' h18
  have c8 : ((A ++ [45] ++ B ++ [45] ++ C ++ [45] ++ D ++ [45] ++ E).drop 19) =
      D ++ [45] ++ E := by
    rw [show A ++ [45] ++ B ++ [45] ++ C ++ [45] ++ D ++ [45] ++ E =
        (A ++ [45] ++ B ++ [45] ++ C ++ [45]) ++ (D ++ [45] ++ E) by simp]
    exact List.drop_left' h19
  have c9 : ((A ++ [45] ++ B ++ [45] ++ C ++ [45] ++ D ++ [45] ++ E).drop 23) =
      [45] ++ E := by
    rw [show A ++ [45] ++ B ++ [45] ++ C ++ [45] ++ D ++ [45] ++ E =
        (A ++ [45] ++ B ++ [45] ++ C ++ [45] ++ D) ++ ([45] ++ E) by simp]
    exact List.drop_left' h23
  have c10 : ((A ++ [45] ++ B ++ [45] ++ C ++ [45] ++ D ++ [45] ++ E).drop 24) = E := by
    rw [show A ++ [45] ++ B ++ [45] ++ C ++ [45] ++ D ++ [45] ++ E =
        (A ++ [45] ++ B ++ [45] ++ C ++ [45] ++ D ++ [45]) ++ E by simp]
    exact List.drop_left' h24
  rw [c1, c2, c3, c4, c5, c6, c7, c8, c9, c10]
  have tB : ((B ++ [45] ++ C ++ [45] ++ D ++ [45] ++ E).take 4) = B := by
    rw [show B ++ [45] ++ C ++ [45] ++ D ++ [45] ++ E =
        B ++ ([45] ++ C ++ [45] ++ D ++ [45] ++ E) by simp]
    exact List.take_left' hB
  have tC : ((C ++ [45] ++ D ++ [45] ++ E).take 4) = C := by
    rw [show C ++ [45] ++ D ++ [45] ++ E = C ++ ([45] ++ D ++ [45] ++ E) by simp]
    exact List.take_left' hC
  have tD : ((D ++ [45] ++ E).take 4) = D := by
    rw [show D ++ [45] ++ E = D ++ ([45] ++ E) by simp]
    exact List.take_left' hD
  rw [tB, tC, tD]
  simp [aA, aB, aC, aD, aE]

theorem isValidUuidString_uuidToString (bs : List Nat) (h16 : bs.length = 16)
    (hb : ∀ b ∈ bs, b < 256) : isValidUuidString (uuidToString bs) = true := by
  unfold uuidToString
  apply isValidUuidString_parts
  · rw [length_hexBytes, List.length_take, h16]; omega
  · rw [length_hexBytes, List.length_take, List.length_drop, h16]; omega
  · rw [length_hexBytes, List.length_take, List.length_drop, h16]; omega
  · rw [length_hexBytes, List.length_take, List.length_drop, h16]; omega
  · rw [length_hexBytes, List.length_drop, h16]
  · exact all_isHexByte_hexBytes _ fun b h => hb b (List.mem_of_mem_take h)
  · exact all_isHexByte_hexBytes _ fun b h =>
      hb b (List.mem_of_mem_drop (List.mem_of_mem_take h))
  · exact all_isHexByte_hexBytes _ fun b h =>
      hb b (List.mem_of_mem_drop (List.mem_of_mem_take h))
  · exact all_isHexByte_hexBytes _ fun b h =>
      hb b (List.mem_of_mem_drop (List.mem_of_mem_take h))
  · exact all_isHexByte_hexBytes _ fun b h => hb b (List.mem_of_mem_drop h)

theorem natToBytesAux_digits (fuel : Nat) : ∀ n, ∀ b ∈ natToBytesAux fuel n, 48 ≤ b ∧ b ≤ 57 := by
  induction fuel with
  | zero => simp [natToBytesAux]
  | succ fuel ih =>
    intro n b hb
    simp only [natToBytesAux] at hb
    split at hb
    · simp only [List.mem_singleton] at hb
      omega
    · rcases List.mem_append.mp hb with h1 | h2
      · exact ih (n / 10) b h1
      · simp only [List.mem_singleton] at h2
        omega

theorem jsonMarshal_ne_nullLit (v : JsonValue) (hnull : v ≠ .jnull)
    (hstr : ∀ s, v ≠ .jstr s) : jsonMarshal v ≠ asciiBytes "null" := by
  cases v with
  | jnull => exact absurd rfl hnull
  | jstr s => exact absurd rfl (hstr s)
  | jbool b => cases b <;> decide
  | jnum n =>
    intro h
    simp only [jsonMarshal, intToBytes] at h
    split at h
    · have h45 := congrArg (fun l => l.headD 0) h
      simp [asciiBytes] at h45
    · have hmem : (110 : Nat) ∈ natToBytes n.toNat := by
        rw [h]
        decide
      rw [natToBytes] at hmem
      have := natToBytesAux_digits _ _ 110 hmem
      omega

theorem convertValue_of_ne (v : JsonValue) (hnull : v ≠ .jnull)
    (hstr : ∀ s, v ≠ .jstr s) : convertValue v = some (jsonMarshal v) := by
  cases v with
  | jnull => exact absurd rfl hnull
  | jstr s => exact absurd rfl (hstr s)
  | jbool b =>
    simp only [convertValue]
    rw [if_neg (jsonMarshal_ne_nullLit (.jbool b) hnull hstr)]
  | jnum n =>
    simp only [convertValue]
    rw [if_neg (jsonMarshal_ne_nullLit (.jnum n) hnull hstr)]

theorem scanRunsRev_found (env : S3Env) (l : List JobRun)
    (hs : l.Pairwise fun a b => b.startTime ≤ a.startTime)
    (hok : ∀ r ∈ l, runListingOk env r = true)
    (hdata : ∃ r ∈ l, runHasData env r = true) :
    ∃ r ∈ l, scanRunsRev env l = .ok r.jobRunId ∧ runHasData env r = true ∧
      ∀ q ∈ l, runHasData env q = true → q.startTime ≤ r.startTime := by
  induction l with
  | nil => simp at hdata
  | cons r rest ih =>
    have hokr : runListingOk env r = true := hok r (by simp)
    have hpair := List.pairwise_cons.mp hs
    cases hlist : env.activitiesListing (activitiesPath r.jobRunId) with
    | err =>
      rw [runListingOk, hlist] at hokr
      cases hokr
    | nil =>
      have hr : runHasData env r = false := by rw [runHasData, hlist]
      have hdata2 : ∃ q ∈ rest, runHasData env q = true := by
        rcases hdata with ⟨q, hq, hqd⟩
        rcases List.mem_cons.mp hq with rfl | hq2
        · rw [hr] at hqd; cases hqd
        · exact ⟨q, hq2, hqd⟩
      obtain ⟨r2, hr2mem, hres, hr2d, hmax⟩ :=
        ih hpair.2 (fun q hq => hok q (by simp [hq])) hdata2
      refine ⟨r2, by simp [hr2mem], ?_, hr2d, ?_⟩
      · simp only [scanRunsRev, hlist]
        exact hres
      · intro q hq hqd
        rcases List.mem_cons.mp hq with rfl | hq2
        · rw [hr] at hqd; cases hqd
        · exact hmax q hq2 hqd
    | ok out =>
      by_cases hkc : 0 < out.keyCount
      · refine ⟨r, by simp, ?_, ?_, ?_⟩
        · simp only [scanRunsRev, hlist, if_pos hkc]
        · rw [runHasData, hlist]; simpa using hkc
        · intro q hq _
          rcases List.mem_cons.mp hq with rfl | hq2
          · exact le_refl _
          · exact hpair.1 q hq2
      · have hr : runHasData env r = false := by
          rw [runHasData, hlist]; simpa using hkc
        have hdata2 : ∃ q ∈ rest, runHasData env q = true := by
          rcases hdata with ⟨q, hq, hqd⟩
          rcases List.mem_cons.mp hq with rfl | hq2
          · rw [hr] at hqd; cases hqd
          · exact ⟨q, hq2, hqd⟩
        obtain ⟨r2, hr2mem, hres, hr2d, hmax⟩ :=
          ih hpair.2 (fun q hq => hok q (by simp [hq])) hdata2
        refine ⟨r2, by simp [hr2mem], ?_, hr2d, ?_⟩
        · simp only [scanRunsRev, hlist, if_neg hkc]
          exact hres
        · intro q hq hqd
          rcases List.mem_cons.mp hq with rfl | hq2
          · rw [hr] at hqd; cases hqd
          · exact hmax q hq2 hqd

theorem scanRunsRev_empty (env : S3Env) (l : List JobRun)
    (hok : ∀ r ∈ l, runListingOk env r = true)
    (hnone : ∀ r ∈ l, runHasData env r = false) :
    scanRunsRev env l = .err .internalError := by
  induction l with
  | nil => rfl
  | cons r rest ih =>
    have hokr := hok r (by simp)
    have hnr := hnone r (by simp)
    cases hlist : env.activitiesListing (activitiesPath r.jobRunId) with
    | err =>
      rw [runListingOk, hlist] at hokr
      cases hokr
    | nil =>
      simp only [scanRunsRev, hlist]
      exact ih (fun q hq => hok q (by simp [hq])) (fun q hq => hnone q (by simp [hq]))
    | ok out =>
      have hkc : ¬ 0 < out.keyCount := by
        rw [runHasData, hlist] at hnr
        simpa using hnr
      simp only [scanRunsRev, hlist, if_neg hkc]
      exact ih (fun q hq => hok q (by simp [hq])) (fun q hq => hnone q (by simp [hq]))

theorem processLines_clean (lines : List S3Line)
    (h : (lines.all fun l => match l with | .good _ => true | .badJson => false) = true) :
    (processLines lines).2 = none := by
  induction lines with
  | nil => rfl
  | cons l rest ih =>
    cases l with
    | good fields =>
      simp only [List.all_cons, Bool.and_eq_true] at h
      simp only [processLines]
      exact ih h.2
    | badJson => simp at h

theorem processObject_clean (idx : Nat) (o : S3Object) (h : objClean o = true) :
    (processObject idx o).2.2 = none ∧ (processObject idx o).1 = objRows o := by
  cases o with
  | fetchErr => simp [objClean] at h
  | gzBad => simp [objClean] at h
  | gzOk lines scanFail =>
    cases scanFail with
    | true => simp [objClean] at h
    | false =>
      have h2 : (processLines lines).2 = none :=
        processLines_clean lines (by simpa [objClean] using h)
      exact ⟨by simp [processObject, h2], rfl⟩

theorem count_map_sendRow (rows : List RowT) (e : S3Event)
    (he : ∀ r, e ≠ S3Event.sendRow r) : (rows.map S3Event.sendRow).count e = 0 := by
  rw [List.count_eq_zero]
  intro hmem
  rcases List.mem_map.mp hmem with ⟨r, _, rfl⟩
  exact he r rfl

theorem processObject_balanced (idx : Nat) (o : S3Object) :
    balancedTrace (processObject idx o).2.1 := by
  intro i
  cases o with
  | fetchErr => simp [processObject]
  | gzBad => simp [processObject, List.count_cons]
  | gzOk lines scanFail =>
    have h1 := count_map_sendRow (processLines lines).1 (S3Event.openBody i) fun r => by simp
    have h2 := count_map_sendRow (processLines lines).1 (S3Event.closeBody i) fun r => by simp
    have h3 := count_map_sendRow (processLines lines).1 (S3Event.openGzr i) fun r => by simp
    have h4 := count_map_sendRow (processLines lines).1 (S3Event.closeGzr i) fun r => by simp
    by_cases hi : i = idx
    · subst hi
      simp [processObject, List.count_cons, List.count_append, h1, h2, h3, h4]
    · simp [processObject, List.count_cons, List.count_append, h1, h2, h3, h4, hi]

theorem streamS3Objects_balanced (objs : List S3Object) :
    ∀ idx, balancedTrace (streamS3Objects idx objs).2.1 := by
  induction objs with
  | nil => intro idx i; simp [streamS3Objects]
  | cons o rest ih =>
    intro idx i
    have hpo := processObject_balanced idx o i
    have hr := ih (idx + 1) i
    simp only [streamS3Objects]
    cases hpe : (processObject idx o).2.2 with
    | some e => simpa using hpo
    | none =>
      simp only [List.count_append]
      omega

theorem streamS3Objects_gzBad (objs : List S3Object) : ∀ (k idx : Nat),
    objs.get? k = some S3Object.gzBad →
    (∀ j, j < k → ∀ o, objs.get? j = some o → objClean o = true) →
    (streamS3Objects idx objs).2.2 = some ErrKind.decodeError ∧
    (streamS3Objects idx objs).1 = ((objs.take k).map objRows).flatten := by
  induction objs with
  | nil => intro k idx hk; simp at hk
  | cons o rest ih =>
    intro k idx hk hclean
    cases k with
    | zero =>
      have ho : o = S3Object.gzBad := by simpa using hk
      subst ho
      simp [streamS3Objects, processObject]
    | succ k =>
      have hco : objClean o = true := hclean 0 (by omega) o rfl
      have hcl := processObject_clean idx o hco
      obtain ⟨he, hrows⟩ := ih k (idx + 1) (by simpa using hk)
        (fun j hj o2 ho2 => hclean (j + 1) (by omega) o2 (by simpa using ho2))
      simp only [streamS3Objects, hcl.1]
      constructor
      · exact he
      · rw [hcl.2, hrows, List.take_succ_cons]
        simp

theorem goMapM_ok {α β : Type} (f : α → GoResult β) (l : List α)
    (h : ∀ a ∈ l, ∃ b, f a = .ok b) : ∃ bs, goMapM f l = .ok bs := by
  induction l with
  | nil => exact ⟨[], rfl⟩
  | cons a rest ih =>
    obtain ⟨b, hb⟩ := h a (by simp)
    obtain ⟨bs, hbs⟩ := ih fun x hx => h x (by simp [hx])
    exact ⟨b :: bs, by simp [goMapM, hb, hbs, GoResult.bind]⟩

theorem keys_insertAssoc (m : List (String × DatabaseColumn)) (k : String) (v : DatabaseColumn) :
    (insertAssoc m k v).map Prod.fst =
      if m.any (fun p => p.1 == k) then m.map Prod.fst else m.map Prod.fst ++ [k] := by
  unfold insertAssoc
  split
  · rw [List.map_map]
    apply List.map_congr_left
    intro p _
    by_cases hp : p.1 == k
    · simp only [Function.comp_apply, if_pos hp]
      exact (eq_of_beq hp).symm
    · simp only [Function.comp_apply, if_neg hp]
  · simp

theorem nodup_keys_insertAssoc (m : List (String × DatabaseColumn)) (k : String)
    (v : DatabaseColumn) (h : (m.map Prod.fst).Nodup) :
    ((insertAssoc m k v).map Prod.fst).Nodup := by
  rw [keys_insertAssoc]
  split
  · exact h
  · rename_i hany
    have hk : k ∉ m.map Prod.fst := by
      intro hmem
      rcases List.mem_map.mp hmem with ⟨p, hp, rfl⟩
      exact hany (List.any_eq_true.mpr ⟨p, hp, by simp⟩)
    simp [List.nodup_append, h, hk]

theorem mem_keys_insertAssoc (m : List (String × DatabaseColumn)) (k : String)
    (v : DatabaseColumn) (x : String) :
    x ∈ (insertAssoc m k v).map Prod.fst ↔ x ∈ m.map Prod.fst ∨ x = k := by
  rw [keys_insertAssoc]
  split
  · rename_i hany
    constructor
    · exact Or.inl
    · rintro (h | rfl)
      · exact h
      · rcases List.any_eq_true.mp hany with ⟨p, hp, hpk⟩
        exact List.mem_map.mpr ⟨p, hp, by simpa using hpk⟩
  · simp [List.mem_append]

theorem foldl_insertAssoc_spec (schemaResp : List DatabaseColumn) :
    ∀ m : List (String × DatabaseColumn), (m.map Prod.fst).Nodup →
    (((schemaResp.foldl (fun m c => insertAssoc m (buildTable c.schema c.table) c) m).map
        Prod.fst).Nodup ∧
      ∀ x, x ∈ (schemaResp.foldl (fun m c => insertAssoc m (buildTable c.schema c.table) c)
          m).map Prod.fst ↔
        (x ∈ m.map Prod.fst ∨ ∃ c ∈ schemaResp, buildTable c.schema c.table = x)) := by
  induction schemaResp with
  | nil =>
    intro m hm
    simpa using hm
  | cons c rest ih =>
    intro m hm
    simp only [List.foldl_cons]
    obtain ⟨h1, h2⟩ := ih (insertAssoc m (buildTable c.schema c.table) c)
      (nodup_keys_insertAssoc _ _ _ hm)
    refine ⟨h1, fun x => ?_⟩
    rw [h2 x, mem_keys_insertAssoc]
    constructor
    · rintro ((h | rfl) | h)
      · exact Or.inl h
      · exact Or.inr ⟨c, by simp, rfl⟩
      · rcases h with ⟨c2, hc2, rfl⟩
        exact Or.inr ⟨c2, by simp [hc2], rfl⟩
    · rintro (h | ⟨c2, hc2, rfl⟩)
      · exact Or.inl (Or.inl h)
      · rcases List.mem_cons.mp hc2 with rfl | hc3
        · exact Or.inl (Or.inr rfl)
        · exact Or.inr ⟨c2, hc3, rfl⟩

theorem buildSchemaTableMap_keys (schemaResp : List DatabaseColumn) :
    ((buildSchemaTableMap schemaResp).map Prod.fst).Nodup ∧
      ∀ x, x ∈ (buildSchemaTableMap schemaResp).map Prod.fst ↔
        ∃ c ∈ schemaResp, buildTable c.schema c.table = x := by
  obtain ⟨h1, h2⟩ := foldl_insertAssoc_spec schemaResp [] (by simp)
  exact ⟨h1, fun x => by simpa using h2 x⟩

theorem firstLineColumns_ne_panicked (s t : String) (o : S3Object) :
    firstLineColumns s t o ≠ .panicked := by
  cases o with
  | fetchErr => simp [firstLineColumns]
  | gzBad => simp [firstLineColumns]
  | gzOk lines scanFail =>
    cases lines with
    | nil => cases scanFail <;> simp [firstLineColumns]
    | cons l rest => cases l <;> simp [firstLineColumns]

theorem processCommonPrefixList_no_panic (env : S3Env) (path : String)
    (plist : List String)
    (hdot : ∀ p ∈ plist, 2 ≤ (schemaTableListOf p).length)
    (hdata : ∀ fp l, env.dataListing fp = .ok l → l ≠ []) :
    ∀ acc, processCommonPrefixList env path acc plist ≠ .panicked := by
  induction plist with
  | nil =>
    intro acc h
    simp [processCommonPrefixList] at h
  | cons p rest ih =>
    intro acc h
    have hp := hdot p (by simp)
    rcases hstl : schemaTableListOf p with _ | ⟨s0, stl1⟩
    · rw [hstl] at hp; simp at hp
    rcases stl1 with _ | ⟨s1, tail⟩
    · rw [hstl] at hp; simp at hp
    simp only [processCommonPrefixList, hstl] at h
    rcases hfp : env.dataListing (path ++ buildTable s0 s1 ++ "/data") with _ | _ | l
    · simp only [hfp] at h
      exact GoResult.noConfusion h
    · simp only [hfp] at h
      exact GoResult.noConfusion h
    · rcases l with _ | ⟨key, keys⟩
      · exact hdata _ _ hfp rfl
      · simp only [hfp] at h
        rcases hfl : firstLineColumns s0 s1 (env.getObject key) with cols | e | _
        · simp only [hfl] at h
          exact ih (fun q hq => hdot q (by simp [hq])) (acc ++ cols) h
        · simp only [hfl] at h
          exact GoResult.noConfusion h
        · exact firstLineColumns_ne_panicked s0 s1 _ hfl

theorem getConnectionSchemaS3_no_panic (env : S3Env) (runId : String)
    (hdot : ∀ out, env.activitiesListing (activitiesPath runId) = .ok out →
      ∀ p ∈ out.commonPrefixList, 2 ≤ (schemaTableListOf p).length)
    (hdata : ∀ fp l, env.dataListing fp = .ok l → l ≠ []) :
    getConnectionSchemaS3 env runId ≠ .panicked := by
  unfold getConnectionSchemaS3
  cases hact : env.activitiesListing (activitiesPath runId) with
  | err => simp
  | nil => simp
  | ok out =>
    exact processCommonPrefixList_no_panic env _ out.commonPrefixList
      (hdot out hact) hdata []

theorem scanRunsRev_classes (env : S3Env) : ∀ l : List JobRun,
    scanRunsRev env l = .err .internalError ∨ scanRunsRev env l = .err .connectError ∨
      ∃ s, scanRunsRev env l = .ok s := by
  intro l
  induction l with
  | nil => exact Or.inl rfl
  | cons r rest ih =>
    cases hl : env.activitiesListing (activitiesPath r.jobRunId) with
    | err => exact Or.inr (Or.inl (by simp [scanRunsRev, hl]))
    | nil => simpa [scanRunsRev, hl] using ih
    | ok out =>
      by_cases hkc : 0 < out.keyCount
      · exact Or.inr (Or.inr ⟨r.jobRunId, by simp [scanRunsRev, hl, hkc]⟩)
      · simpa [scanRunsRev, hl, hkc] using ih

theorem resolveS3Run_classes (env : S3Env) (jobRuns : List JobRun) (sel : S3Sel) :
    resolveS3Run env jobRuns sel = .err .internalError ∨
      resolveS3Run env jobRuns sel = .err .connectError ∨
      ∃ s, resolveS3Run env jobRuns sel = .ok s := by
  cases sel with
  | byRunId id => exact Or.inr (Or.inr ⟨id, rfl⟩)
  | byJobId id =>
    simpa [resolveS3Run, getLastestJobRunFromAwsS3] using
      scanRunsRev_classes env jobRuns.reverse
  | unspecified => exact Or.inl rfl

theorem processLines_classes (lines : List S3Line) :
    (processLines lines).2 = none ∨ (processLines lines).2 = some ErrKind.decodeError := by
  induction lines with
  | nil => exact Or.inl rfl
  | cons l rest ih =>
    cases l with
    | good fields => simpa [processLines] using ih
    | badJson => exact Or.inr rfl

theorem processObject_classes (idx : Nat) (o : S3Object) :
    (processObject idx o).2.2 = none ∨
      (processObject idx o).2.2 = some ErrKind.connectError ∨
      (processObject idx o).2.2 = some ErrKind.decodeError := by
  cases o with
  | fetchErr => exact Or.inr (Or.inl rfl)
  | gzBad => exact Or.inr (Or.inr rfl)
  | gzOk lines scanFail =>
    rcases processLines_classes lines with h | h
    · cases scanFail
      · exact Or.inl (by simp [processObject, h])
      · exact Or.inr (Or.inr (by simp [processObject, h]))
    · exact Or.inr (Or.inr (by simp [processObject, h]))

theorem streamS3Objects_classes (objs : List S3Object) : ∀ idx,
    (streamS3Objects idx objs).2.2 = none ∨
      (streamS3Objects idx objs).2.2 = some ErrKind.connectError ∨
      (streamS3Objects idx objs).2.2 = some ErrKind.decodeError := by
  induction objs with
  | nil => intro idx; exact Or.inl rfl
  | cons o rest ih =>
    intro idx
    rcases processObject_classes idx o with h | h | h
    · simpa [streamS3Objects, h] using ih (idx + 1)
    · exact Or.inr (Or.inl (by simp [streamS3Objects, h]))
    · exact Or.inr (Or.inr (by simp [streamS3Objects, h]))

theorem s3StreamBranch_ne_badRequest (intro : GoResult (List DatabaseColumn))
    (s t : String) (pgCols : List PgColumn) (pgRows : List (List PgScanned))
    (myCols : List String) (myRows : List (List (Option (List Nat))))
    (sel : S3Sel) (env : S3Env) (jobRuns : List JobRun) :
    GetConnectionDataStream .awsS3 intro s t pgCols pgRows myCols myRows (some sel)
      env jobRuns ≠ .err .badRequest := by
  intro h
  simp only [GetConnectionDataStream] at h
  rcases resolveS3Run_classes env jobRuns sel with hr | hr | ⟨runId, hr⟩
  · rw [hr] at h
    simp [GoResult.bind] at h
  · rw [hr] at h
    simp [GoResult.bind] at h
  · rw [hr] at h
    simp only [GoResult.bind] at h
    cases hdl : env.dataListing (dataPathOf runId s t) with
    | err => simp only [hdl] at h; simp at h
    | nil => simp only [hdl] at h; simp at h
    | ok keys =>
      simp only [hdl] at h
      rcases streamS3Objects_classes (keys.map env.getObject) 0 with hs | hs | hs <;>
        · simp only [hs] at h
          simp at h

/-! ## Claim theorems -/

/-- C1: run resolution scans the job's recent runs newest-first (the history
is stored newest-last and the loop walks it backwards) and returns the most
recent run whose `workflows/<runId>/activities/` prefix lists at least one
key: the returned run has data and no more recent run does. -/
theorem c1_latest_run_with_data (env : S3Env) (jobRuns : List JobRun)
    (hsorted : jobRuns.Pairwise fun a b => a.startTime ≤ b.startTime)
    (hok : ∀ r ∈ jobRuns, runListingOk env r = true)
    (hdata : ∃ r ∈ jobRuns, runHasData env r = true) :
    ∃ r ∈ jobRuns, getLastestJobRunFromAwsS3 env jobRuns = .ok r.jobRunId ∧
      runHasData env r = true ∧
      ∀ q ∈ jobRuns, runHasData env q = true → q.startTime ≤ r.startTime := by
  have hrev : jobRuns.reverse.Pairwise fun a b => b.startTime ≤ a.startTime := by
    rw [List.pairwise_reverse]
    exact hsorted
  obtain ⟨r, hmem, hres, hd, hmax⟩ := scanRunsRev_found env jobRuns.reverse hrev
    (fun q hq => hok q (List.mem_reverse.mp hq))
    (by
      rcases hdata with ⟨r, hr, hrd⟩
      exact ⟨r, List.mem_reverse.mpr hr, hrd⟩)
  exact ⟨r, List.mem_reverse.mp hmem, hres, hd,
    fun q hq hqd => hmax q (List.mem_reverse.mpr hq) hqd⟩

/-- Witness for C1: for runs `[r1 (empty), r2 (has data), r3 (empty)]`
(newest to oldest, stored newest-last) resolution returns `r2`. -/
theorem c1_latest_run_with_data_witness :
    getLastestJobRunFromAwsS3 exRunEnv exRuns = .ok "r2" ∧
    ∃ r ∈ exRuns, getLastestJobRunFromAwsS3 exRunEnv exRuns = .ok r.jobRunId ∧
      runHasData exRunEnv r = true ∧
      ∀ q ∈ exRuns, runHasData exRunEnv q = true → q.startTime ≤ r.startTime :=
  ⟨by decide,
    c1_latest_run_with_data exRunEnv exRuns (by decide) (by decide) (by decide)⟩

/-- C2 counterexample: with no run having data, resolution fails with the
internal-error class (`NewInternalError`), not `NotFound`. -/
theorem c2_no_data_error_class_counterexample :
    getLastestJobRunFromAwsS3 exEmptyEnv [⟨"r1", 1⟩] ≠ .err .notFound ∧
    getLastestJobRunFromAwsS3 exEmptyEnv [⟨"r1", 1⟩] = .err .internalError := by
  constructor
  · decide
  · decide

/-- C2 amended: when every run's listing succeeds and none has data, run
resolution fails with an internal error. -/
theorem c2_no_data_internal_error (env : S3Env) (jobRuns : List JobRun)
    (hok : ∀ r ∈ jobRuns, runListingOk env r = true)
    (hnone : ∀ r ∈ jobRuns, runHasData env r = false) :
    getLastestJobRunFromAwsS3 env jobRuns = .err .internalError :=
  scanRunsRev_empty env jobRuns.reverse
    (fun q hq => hok q (List.mem_reverse.mp hq))
    (fun q hq => hnone q (List.mem_reverse.mp hq))

/-- Witness for the amended C2. -/
theorem c2_no_data_internal_error_witness :
    getLastestJobRunFromAwsS3 exEmptyEnv exRuns = .err .internalError :=
  c2_no_data_internal_error exEmptyEnv exRuns (by decide) (by decide)

/-- C3 counterexample: a row-count request whose schema/table names are not
members of any introspected schema succeeds by delegating straight to the
count query, instead of failing with `BadRequest`. -/
theorem c3_rowcount_no_validation_counterexample :
    GetTableRowCount (.ok ()) (fun _ _ _ => .ok 7) "not_a_schema" "not_a_table" none = .ok 7 ∧
    GetTableRowCount (.ok ()) (fun _ _ _ => .ok 7) "not_a_schema" "not_a_table" none ≠
      .err .badRequest := by
  constructor
  · rfl
  · decide

/-- C3 amended: row-streaming requests on the relational backends validate
the supplied schema and table names against the introspected schema and fail
with `BadRequest` when either is not a member; row-count requests perform no
membership validation — a `BadRequest` can only come from the injected
collaborators; and S3 row-streaming performs no membership validation
either: its result ignores the introspected schema entirely, it can never
fail with `BadRequest` once a stream selector is supplied, and a request for
names outside every introspected schema still streams rows. -/
theorem c3_validation_coverage :
    (∀ (schemas : List DatabaseColumn) (s t : String) (pgCols : List PgColumn)
        (pgRows : List (List PgScanned)) (myCols : List String)
        (myRows : List (List (Option (List Nat)))) (s3cfg : Option S3Sel)
        (env : S3Env) (jobRuns : List JobRun),
      (isValidSchema s schemas = false ∨ isValidTable t schemas = false) →
      GetConnectionDataStream .postgres (.ok schemas) s t pgCols pgRows myCols myRows
          s3cfg env jobRuns = .err .badRequest ∧
        GetConnectionDataStream .mysql (.ok schemas) s t pgCols pgRows myCols myRows
          s3cfg env jobRuns = .err .badRequest) ∧
    (∀ (newSqlDb : GoResult Unit) (getCount : String → String → Option String → GoResult Int)
        (s t : String) (w : Option String),
      GetTableRowCount newSqlDb getCount s t w = .err .badRequest →
      newSqlDb = .err .badRequest ∨ getCount s t w = .err .badRequest) ∧
    (∀ (intro intro2 : GoResult (List DatabaseColumn)) (s t : String)
        (pgCols : List PgColumn) (pgRows : List (List PgScanned))
        (myCols : List String) (myRows : List (List (Option (List Nat))))
        (s3cfg : Option S3Sel) (env : S3Env) (jobRuns : List JobRun),
      GetConnectionDataStream .awsS3 intro s t pgCols pgRows myCols myRows s3cfg
          env jobRuns =
        GetConnectionDataStream .awsS3 intro2 s t pgCols pgRows myCols myRows s3cfg
          env jobRuns) ∧
    (∀ (intro : GoResult (List DatabaseColumn)) (s t : String)
        (pgCols : List PgColumn) (pgRows : List (List PgScanned))
        (myCols : List String) (myRows : List (List (Option (List Nat))))
        (sel : S3Sel) (env : S3Env) (jobRuns : List JobRun),
      GetConnectionDataStream .awsS3 intro s t pgCols pgRows myCols myRows (some sel)
        env jobRuns ≠ .err .badRequest) ∧
    (GetConnectionDataStream .awsS3 (.ok exSchemas) "nope" "nada" [] [] [] []
        (some (.byRunId "r1")) exS3StreamEnv [] =
          .ok [[("a", some (asciiBytes "x"))]] ∧
      isValidSchema "nope" exSchemas = false ∧
      isValidTable "nada" exSchemas = false) := by
  refine ⟨?_, ?_, ?_, ?_, ?_⟩
  · intro schemas s t pgCols pgRows myCols myRows s3cfg env jobRuns hbad
    have hval : areSchemaAndTableValid (.ok schemas) s t = .err .badRequest := by
      rcases hbad with h | h <;> simp [areSchemaAndTableValid, GoResult.bind, h]
    constructor <;> simp [GetConnectionDataStream, hval, GoResult.bind]
  · intro newSqlDb getCount s t w h
    cases newSqlDb with
    | ok u =>
      right
      simpa [GetTableRowCount, GoResult.bind] using h
    | err e =>
      left
      simpa [GetTableRowCount, GoResult.bind] using h
    | panicked => simp [GetTableRowCount, GoResult.bind] at h
  · intro intro intro2 s t pgCols pgRows myCols myRows s3cfg env jobRuns
    rfl
  · intro intro s t pgCols pgRows myCols myRows sel env jobRuns
    exact s3StreamBranch_ne_badRequest intro s t pgCols pgRows myCols myRows sel
      env jobRuns
  · refine ⟨?_, by decide, by decide⟩
    decide

/-- Witness for the amended C3: invalid names on both relational backends. -/
theorem c3_validation_coverage_witness :
    GetConnectionDataStream .postgres (.ok exSchemas) "nope" "nada" [] [] [] [] none
        exEmptyEnv [] = .err .badRequest ∧
    GetConnectionDataStream .mysql (.ok exSchemas) "nope" "nada" [] [] [] [] none
        exEmptyEnv [] = .err .badRequest :=
  c3_validation_coverage.1 exSchemas "nope" "nada" [] [] [] [] none exEmptyEnv []
    (Or.inl (by decide))

/-- C4: per-key conversion of an ingested JSON line: a string value becomes
its raw bytes, `null` becomes a nil payload, any other value becomes its
JSON encoding; the example line yields the example row. -/
theorem c4_json_line_conversion :
    (∀ s, convertValue (.jstr s) = some s) ∧
    convertValue .jnull = none ∧
    (∀ v, v ≠ .jnull → (∀ s, v ≠ .jstr s) → convertValue v = some (jsonMarshal v)) ∧
    rowOfFields [("a", .jstr (asciiBytes "x")), ("b", .jnum 5), ("c", .jnull)] =
      [("a", some (asciiBytes "x")), ("b", some (asciiBytes "5")), ("c", none)] := by
  refine ⟨fun s => rfl, rfl, convertValue_of_ne, ?_⟩
  decide

/-- Witness for C4 at a non-string, non-null value. -/
theorem c4_json_line_conversion_witness :
    convertValue (.jnum 5) = some (jsonMarshal (.jnum 5)) :=
  c4_json_line_conversion.2.2.1 (.jnum 5) (fun h => JsonValue.noConfusion h)
    (fun _ h => JsonValue.noConfusion h)

/-- C5: a non-NULL Postgres date value is emitted as RFC-3339 bytes that
parse back to the original components, and a 16-byte UUID value is emitted
as its canonical textual form, which is a valid UUID string. -/
theorem c5_date_uuid_roundtrip :
    (∀ t : GoTime, t.year ≤ 9999 → t.month ≤ 12 → t.day ≤ 31 → t.hour ≤ 23 →
        t.minute ≤ 59 → t.second ≤ 59 →
      convertPgValue 1082 (.timeVal t) = .ok (some (formatRFC3339 t)) ∧
        parseRFC3339 (formatRFC3339 t) = some t) ∧
    (∀ bs : List Nat, bs.length = 16 → (∀ b ∈ bs, b < 256) →
      convertPgValue 2950 (.bytes bs) = .ok (some (uuidToString bs)) ∧
        isValidUuidString (uuidToString bs) = true) := by
  constructor
  · intro t hy hmo hd hh hmi hs2
    have h4 : (10 : Nat) ^ 4 = 10000 := by norm_num
    have h2 : (10 : Nat) ^ 2 = 100 := by norm_num
    exact ⟨rfl, parseRFC3339_formatRFC3339 t (by omega) (by omega) (by omega)
      (by omega) (by omega) (by omega)⟩
  · intro bs h16 hb
    refine ⟨?_, isValidUuidString_uuidToString bs h16 hb⟩
    simp [convertPgValue, h16]

/-- Witness for C5 at a concrete date and UUID. -/
theorem c5_date_uuid_roundtrip_witness :
    (convertPgValue 1082 (.timeVal ⟨2024, 3, 15, 0, 0, 0⟩) =
        .ok (some (formatRFC3339 ⟨2024, 3, 15, 0, 0, 0⟩)) ∧
      parseRFC3339 (formatRFC3339 ⟨2024, 3, 15, 0, 0, 0⟩) = some ⟨2024, 3, 15, 0, 0, 0⟩) ∧
    convertPgValue 2950 (.bytes exUuidBytes) = .ok (some (uuidToString exUuidBytes)) ∧
    isValidUuidString (uuidToString exUuidBytes) = true :=
  ⟨c5_date_uuid_roundtrip.1 ⟨2024, 3, 15, 0, 0, 0⟩ (by decide) (by decide) (by decide)
      (by decide) (by decide) (by decide),
    c5_date_uuid_roundtrip.2 exUuidBytes (by decide) (by decide)⟩

/-- C6 (code bug): a SQL NULL in a Postgres date-typed column (OID 1082)
does not produce a nil payload: `DateScanner.Scan` leaves the zero time in
place on a nil input, and the row-building guard `ds.val != nil` tests the
pointer to the local `t` — always non-nil — so the emitted payload is the
RFC-3339 encoding of Go's zero time instead of nil. -/
theorem c6_null_date_payload_not_nil :
    convertPgValue 1082 .null = .ok (some (asciiBytes "0001-01-01T00:00:00Z")) ∧
    convertPgValue 1082 .null ≠ .ok none := by
  constructor
  · decide
  · decide

/-- C7: on Postgres, `truncateCascade=true` succeeds with exactly one
truncate statement per introspected table (the statement keys are exactly
the distinct `schema.table` pairs, without duplicates);
`truncateCascade=false` with `truncateBeforeInsert=true` fails with
`NotImplemented`; on MySQL truncate-statement generation always succeeds. -/
theorem c7_truncate_statements (schemas : List DatabaseColumn)
    (opts : InitStatementOptions) (env : S3Env) (jobRuns : List JobRun)
    (getCreate : String → String → GoResult String)
    (hcreate : ∀ s t, ∃ v, getCreate s t = .ok v) :
    (opts.truncateCascade = true →
      ∃ resp, GetConnectionInitStatements .postgres opts (.ok schemas) env jobRuns
          getCreate = .ok resp ∧
        (resp.tableTruncateStatements.map Prod.fst).Nodup ∧
        ∀ x, x ∈ resp.tableTruncateStatements.map Prod.fst ↔
          ∃ c ∈ schemas, buildTable c.schema c.table = x) ∧
    (opts.truncateCascade = false → opts.truncateBeforeInsert = true →
      GetConnectionInitStatements .postgres opts (.ok schemas) env jobRuns getCreate =
        .err .notImplemented) ∧
    (∃ resp, GetConnectionInitStatements .mysql opts (.ok schemas) env jobRuns
      getCreate = .ok resp) := by
  have hstep : ∃ cs, (if opts.initSchema then
      goMapM (fun kc => (getCreate kc.2.schema kc.2.table).bind fun stmt =>
        GoResult.ok (kc.1, stmt)) (buildSchemaTableMap schemas)
    else .ok ([] : List (String × String))) = .ok cs := by
    by_cases hi : opts.initSchema
    · rw [if_pos hi]
      exact goMapM_ok _ _ fun kc _ => by
        obtain ⟨v, hv⟩ := hcreate kc.2.schema kc.2.table
        exact ⟨(kc.1, v), by simp [hv, GoResult.bind]⟩
    · exact ⟨[], by rw [if_neg hi]⟩
  obtain ⟨cs, hcs⟩ := hstep
  simp only [GoResult.bind] at hcs
  obtain ⟨hnd, hmem⟩ := buildSchemaTableMap_keys schemas
  have hkeys : (((buildSchemaTableMap schemas).map fun kc =>
      ((kc.1, buildPgTruncateCascadeStatement kc.2.schema kc.2.table) : String × String)).map
        Prod.fst) = (buildSchemaTableMap schemas).map Prod.fst := by
    rw [List.map_map]
    rfl
  refine ⟨?_, ?_, ?_⟩
  · intro hcas
    refine ⟨⟨cs, (buildSchemaTableMap schemas).map fun kc =>
        (kc.1, buildPgTruncateCascadeStatement kc.2.schema kc.2.table)⟩, ?_, ?_, ?_⟩
    · simp only [GetConnectionInitStatements, getConnectionSchemaHelper,
        GetConnectionSchema, GoResult.bind, hcas, if_pos]
      rw [hcs]
    · rw [hkeys]
      exact hnd
    · intro x
      rw [hkeys]
      exact hmem x
  · intro hcas htr
    simp only [GetConnectionInitStatements, getConnectionSchemaHelper,
      GetConnectionSchema, GoResult.bind, hcas, htr, if_false, if_true,
      Bool.false_eq_true]
    rw [hcs]
  · refine ⟨⟨cs, if opts.truncateBeforeInsert then
        (buildSchemaTableMap schemas).map fun kc =>
          (kc.1, buildMysqlTruncateStatement kc.2.schema kc.2.table)
      else []⟩, ?_⟩
    simp only [GetConnectionInitStatements, getConnectionSchemaHelper,
      GetConnectionSchema, GoResult.bind]
    rw [hcs]

/-- Witness for C7: cascade truncate over two introspected tables. -/
theorem c7_truncate_statements_witness :
    ∃ resp, GetConnectionInitStatements .postgres ⟨false, false, true⟩ (.ok exSchemas)
        exEmptyEnv [] (fun _ _ => .ok "") = .ok resp ∧
      (resp.tableTruncateStatements.map Prod.fst).Nodup ∧
      ∀ x, x ∈ resp.tableTruncateStatements.map Prod.fst ↔
        ∃ c ∈ exSchemas, buildTable c.schema c.table = x :=
  (c7_truncate_statements exSchemas ⟨false, false, true⟩ exEmptyEnv []
    (fun _ _ => .ok "") (fun _ _ => ⟨"", rfl⟩)).1 rfl

/-- C8 counterexample: `getConnectionTableSchema` on an S3 connection fails
with `BadRequest`, not `NotImplemented`. -/
theorem c8_table_schema_error_class_counterexample :
    getConnectionTableSchema .awsS3 (.ok []) (.ok []) "public" "users" =
      .err .badRequest ∧
    ErrKind.badRequest ≠ ErrKind.notImplemented := ⟨rfl, by decide⟩

/-- C8 amended: data streaming, schema discovery and the schema helper fail
with `NotImplemented` on unsupported backend kinds, but
`getConnectionTableSchema` fails with `BadRequest` on every unsupported kind,
and an S3-backed init-statements request fails with `BadRequest` (from the
nil schema config the helper builds) rather than `NotImplemented`. -/
theorem c8_unsupported_kind_errors :
    (∀ intro s t pgCols pgRows myCols myRows s3cfg env jobRuns,
      GetConnectionDataStream .openai intro s t pgCols pgRows myCols myRows s3cfg env
        jobRuns = .err .notImplemented) ∧
    (∀ sqlIntrospect s3cfg env jobRuns,
      GetConnectionSchema .openai sqlIntrospect s3cfg env jobRuns =
        .err .notImplemented) ∧
    (∀ opts sqlIntrospect env jobRuns,
      getConnectionSchemaHelper .openai opts sqlIntrospect env jobRuns =
        .err .notImplemented) ∧
    (∀ pgT myT s t,
      getConnectionTableSchema .awsS3 pgT myT s t = .err .badRequest ∧
      getConnectionTableSchema .openai pgT myT s t = .err .badRequest) ∧
    (∀ opts sqlIntrospect env jobRuns getCreate,
      GetConnectionInitStatements .awsS3 opts sqlIntrospect env jobRuns getCreate =
        .err .badRequest) := by
  refine ⟨?_, ?_, ?_, ?_, ?_⟩
  · intros; rfl
  · intros; rfl
  · intros; rfl
  · intros; exact ⟨rfl, rfl⟩
  · intros; rfl

/-- C10: the S3 schema-discovery loop indexes `schemaTableList[1]` and
`out.Contents[0]` without bounds checks; it is panic-free whenever every
listed common prefix names a dotted `schema.table` pair and every successful
data listing is non-empty, and both halves of that precondition are needed:
it panics on a prefix whose table folder has no dot, and it panics on a
well-formed prefix whose data listing succeeds with no contents. -/
theorem c10_schema_indexing_totality :
    (∀ env runId,
      (∀ out, env.activitiesListing (activitiesPath runId) = .ok out →
        ∀ p ∈ out.commonPrefixList, 2 ≤ (schemaTableListOf p).length) →
      (∀ fp l, env.dataListing fp = .ok l → l ≠ []) →
      getConnectionSchemaS3 env runId ≠ .panicked) ∧
    getConnectionSchemaS3 exNoDotEnv "r1" = .panicked ∧
    getConnectionSchemaS3 exEmptyListingEnv "r1" = .panicked := by
  refine ⟨fun env runId hdot hdata =>
    getConnectionSchemaS3_no_panic env runId hdot hdata, ?_, ?_⟩
  · decide
  · decide

/-- Witness for C10's totality half on an environment with nil listings. -/
theorem c10_schema_indexing_totality_witness :
    getConnectionSchemaS3 exNilEnv "r1" ≠ .panicked :=
  c10_schema_indexing_totality.1 exNilEnv "r1"
    (fun _ hout => Listing.noConfusion hout)
    (fun _ _ hl => Listing.noConfusion hl)

theorem processLines_bad (lines : List S3Line) (h : ∃ l ∈ lines, l = S3Line.badJson) :
    (processLines lines).2 = some ErrKind.decodeError := by
  induction lines with
  | nil => simp at h
  | cons l rest ih =>
    cases l with
    | badJson => rfl
    | good fields =>
      simp only [processLines]
      apply ih
      rcases h with ⟨l2, hl2, rfl⟩
      rcases List.mem_cons.mp hl2 with h2 | h2
      · exact S3Line.noConfusion h2
      · exact ⟨_, h2, rfl⟩

theorem streamS3Objects_jsonBad (objs : List S3Object) :
    ∀ (k idx : Nat) (lines : List S3Line) (scanFail : Bool),
    objs.get? k = some (S3Object.gzOk lines scanFail) →
    (∃ l ∈ lines, l = S3Line.badJson) →
    (∀ j, j < k → ∀ o, objs.get? j = some o → objClean o = true) →
    (streamS3Objects idx objs).2.2 = some ErrKind.decodeError := by
  induction objs with
  | nil =>
    intro k idx lines scanFail hk
    simp at hk
  | cons o rest ih =>
    intro k idx lines scanFail hk hbad hclean
    cases k with
    | zero =>
      have ho : o = S3Object.gzOk lines scanFail := by simpa using hk
      subst ho
      have hpl := processLines_bad lines hbad
      simp [streamS3Objects, processObject, hpl]
    | succ k =>
      have hco : objClean o = true := hclean 0 (by omega) o rfl
      have hcl := processObject_clean idx o hco
      simp only [streamS3Objects, hcl.1]
      exact ih k (idx + 1) lines scanFail (by simpa using hk) hbad
        (fun j hj o2 ho2 => hclean (j + 1) (by omega) o2 (by simpa using ho2))

/-- C9: a gzip-header failure on the object at position `k` aborts the whole
S3 stream with a decode error and emits exactly the rows of the `k`
preceding clean objects; a JSON decode failure on any line of any object
also aborts the call with a decode error; and on every path — success or
error — each opened object body and gzip reader in the trace is closed. -/
theorem c9_stream_abort_and_cleanup :
    (∀ (objs : List S3Object) (k : Nat), objs.get? k = some S3Object.gzBad →
      (∀ j, j < k → ∀ o, objs.get? j = some o → objClean o = true) →
      (streamS3Objects 0 objs).2.2 = some ErrKind.decodeError ∧
        (streamS3Objects 0 objs).1 = ((objs.take k).map objRows).flatten) ∧
    (∀ (objs : List S3Object) (k : Nat) (lines : List S3Line) (scanFail : Bool),
      objs.get? k = some (S3Object.gzOk lines scanFail) →
      (∃ l ∈ lines, l = S3Line.badJson) →
      (∀ j, j < k → ∀ o, objs.get? j = some o → objClean o = true) →
      (streamS3Objects 0 objs).2.2 = some ErrKind.decodeError) ∧
    (∀ objs : List S3Object, balancedTrace (streamS3Objects 0 objs).2.1) :=
  ⟨fun objs k hk hclean => streamS3Objects_gzBad objs k 0 hk hclean,
    fun objs k lines scanFail hk hbad hclean =>
      streamS3Objects_jsonBad objs k 0 lines scanFail hk hbad hclean,
    fun objs => streamS3Objects_balanced objs 0⟩

/-- Witness for C9: three objects with the middle one gzip-corrupt. -/
theorem c9_stream_abort_and_cleanup_witness :
    (streamS3Objects 0 exStreamObjs).2.2 = some ErrKind.decodeError ∧
    (streamS3Objects 0 exStreamObjs).1 = ((exStreamObjs.take 1).map objRows).flatten :=
  c9_stream_abort_and_cleanup.1 exStreamObjs 1 (by decide)
    (by
      intro j hj o ho
      have hj0 : j = 0 := by omega
      subst hj0
      have ho2 : o = S3Object.gzOk [.good [("a", .jstr (asciiBytes "x"))]] false := by
        simpa [exStreamObjs] using ho.symm
      subst ho2
      decide)
